import Mathlib

/-!
Shallow embedding of the chart-digitization and forecasting engine
(src/Problem_2/solution.js: the utility functions and the classes
ChartAnalyzer, PriceMapper and PricePrediction).

JavaScript floating-point arithmetic is idealized as exact rational
arithmetic.  A JavaScript number that may be non-finite (NaN or an
infinity) is modelled as an Option value whose none constructor stands
for any non-finite value; the embedded call sites only ever divide by a
finite value, so the one IEEE case where a non-finite operand yields a
finite result (finite divided by infinite) never occurs and the
abstraction is exact.  Math.sqrt leaves the rationals, so the standard
deviation and the confidence computation are modelled over the reals.
-/

/-- JavaScript number that may be non-finite: none models NaN or an infinity. -/
abbrev JVal := Option ℚ

/-- Addition on possibly non-finite JavaScript numbers. -/
def jadd : JVal → JVal → JVal
  | some a, some b => some (a + b)
  | _, _ => none

/-- Subtraction on possibly non-finite JavaScript numbers. -/
def jsub : JVal → JVal → JVal
  | some a, some b => some (a - b)
  | _, _ => none

/-- Multiplication on possibly non-finite JavaScript numbers. -/
def jmul : JVal → JVal → JVal
  | some a, some b => some (a * b)
  | _, _ => none

/-- JavaScript division: dividing by zero yields a non-finite value
(NaN for 0/0, an infinity otherwise). -/
def jdiv : JVal → JVal → JVal
  | some a, some b => if b = 0 then none else some (a / b)
  | _, _ => none

/-- RGBA sample as produced by Jimp.intToRGBA. -/
structure RGBA where
  r : ℕ
  g : ℕ
  b : ℕ
  a : ℕ
deriving DecidableEq

/-- Decoded raster image: pixel access by integer coordinates
(the image-decode boundary; this.image.getPixelColor). -/
abbrev Image := ℕ → ℕ → RGBA

/-- Named inclusive RGB ranges; each channel holds its (low, high) pair. -/
structure ColorProfile where
  r : ℕ × ℕ
  g : ℕ × ℕ
  b : ℕ × ℕ
deriving DecidableEq

/-- Plot-area rectangle inside the image. -/
structure ChartBounds where
  x : ℕ
  y : ℕ
  width : ℕ
  height : ℕ
deriving DecidableEq

/-- One representative pixel position per scanned column: x the integer
column, y the median matching row (possibly a half-integer). -/
structure PixelPoint where
  x : ℕ
  y : ℚ
deriving DecidableEq

instance : Inhabited PixelPoint := ⟨⟨0, 0⟩⟩

/-- A PixelPoint after coordinate inversion. -/
structure DomainPoint where
  timestamp : ℚ
  price : ℚ
deriving DecidableEq

instance : Inhabited DomainPoint := ⟨⟨0, 0⟩⟩

/-- Horizontal axis range of the chart. -/
structure DateRange where
  start : ℚ
  «end» : ℚ

/-- Vertical axis range of the chart. -/
structure PriceRange where
  min : ℚ
  max : ℚ

/-- The fields of the CONFIG constant that the embedded code reads. -/
structure Config where
  samplingInterval : ℕ
  minLinePoints : ℕ
  smoothingWindow : ℕ
  outlierThreshold : ℚ
  polynomialDegree : ℕ
  colorProfiles : List (String × ColorProfile)

/-- The CONFIG constant of the source: sampling interval 1, minimum 20 line
points, smoothing window 5, outlier threshold 2.5, polynomial degree 2, and
the ordered color-profile registry blue, red, green, black. -/
def CONFIG : Config where
  samplingInterval := 1
  minLinePoints := 20
  smoothingWindow := 5
  outlierThreshold := 5 / 2
  polynomialDegree := 2
  colorProfiles :=
    [("blue", { r := (0, 180), g := (0, 200), b := (80, 255) }),
     ("red", { r := (150, 255), g := (0, 150), b := (0, 150) }),
     ("green", { r := (0, 150), g := (100, 255), b := (0, 150) }),
     ("black", { r := (0, 90), g := (0, 90), b := (0, 90) })]

/-- linearMap(value, inMin, inMax, outMin, outMax).  The range endpoints are
finite rationals at every embedded call site; only the value may be
non-finite. -/
def linearMap (value : JVal) (inMin inMax outMin outMax : ℚ) : JVal :=
  if inMax = inMin then some outMin
  else
    jadd
      (jdiv (jmul (jsub value (some inMin)) (some (outMax - outMin)))
        (some (inMax - inMin)))
      (some outMin)

/-- median(arr): sort ascending; for even length average the two middle
values.  The source indexes sorted[mid-1] and sorted[mid] directly; the
embedding defaults an out-of-range read to 0, which only the empty input
(never passed by the embedded callers) reaches. -/
def median (arr : List ℚ) : ℚ :=
  let sorted := arr.insertionSort (· ≤ ·)
  let mid := sorted.length / 2
  if sorted.length % 2 = 0 then (sorted.getD (mid - 1) 0 + sorted.getD mid 0) / 2
  else sorted.getD mid 0

/-- standardDeviation(arr): square root of the population variance.  The mean
and the squared deviations are exact rationals; the final Math.sqrt moves to
the reals. -/
noncomputable def standardDeviation (arr : List ℚ) : ℝ :=
  let mean := arr.sum / (arr.length : ℚ)
  let squareDiffs := arr.map (fun val => (val - mean) ^ 2)
  Real.sqrt ((squareDiffs.sum / (arr.length : ℚ) : ℚ) : ℝ)

/-- matchesColorProfile(pixel, profile): closed-interval containment on all
three channels. -/
def matchesColorProfile (pixel : RGBA) (profile : ColorProfile) : Bool :=
  decide (profile.r.1 ≤ pixel.r ∧ pixel.r ≤ profile.r.2 ∧
    profile.g.1 ≤ pixel.g ∧ pixel.g ≤ profile.g.2 ∧
    profile.b.1 ≤ pixel.b ∧ pixel.b ≤ profile.b.2)

/-- Positions visited by the source loops of shape
for (p = start; p < start + len; p += step): that is start, start + step,
start + 2 step, ... while below start + len.  (For step = 0 the source loop
would not terminate; every embedded call passes a positive step.) -/
def scanPositions (start len step : ℕ) : List ℕ :=
  (List.range ((len + step - 1) / step)).map (fun k => start + k * step)

/-- Grid sampled by detectLineColor: stride samplingInterval * 5 in both
directions across the chart bounds. -/
def sampledPositions (interval : ℕ) (bounds : ChartBounds) : List (ℕ × ℕ) :=
  (scanPositions bounds.x bounds.width (interval * 5)).flatMap (fun px =>
    (scanPositions bounds.y bounds.height (interval * 5)).map (fun py => (px, py)))

/-- Per-profile match counts of detectLineColor: the source walks the sample
grid incrementing every matching profile counter; the final counter value is
the number of sampled positions matching that profile. -/
def colorCounts (interval : ℕ) (img : Image) (bounds : ChartBounds) :
    List (String × ℕ) :=
  CONFIG.colorProfiles.map (fun entry =>
    (entry.1, ((sampledPositions interval bounds).filter (fun pos =>
      matchesColorProfile (img pos.1 pos.2) entry.2)).length))

/-- detectLineColor(): reduce over the ordered counts keeping a strictly
larger count, seeded with the pair of blue and count 0. -/
def detectLineColor (interval : ℕ) (img : Image) (bounds : ChartBounds) : String :=
  ((colorCounts interval img bounds).foldl
    (fun best entry => if entry.2 > best.2 then entry else best) ("blue", 0)).1

/-- Row positions of one scanned column whose pixel matches the profile
(the inner py loop of extractDataPoints). -/
def columnRows (img : Image) (bounds : ChartBounds) (profile : ColorProfile)
    (px : ℕ) : List ℕ :=
  ((List.range bounds.height).map (fun k => bounds.y + k)).filter
    (fun py => matchesColorProfile (img px py) profile)

/-- extractDataPoints(colorName): scan columns left to right at the sampling
interval; a column with at least one matching row emits one point whose y is
the median of its matching rows, a column without matches emits nothing. -/
def extractDataPoints (interval : ℕ) (img : Image) (bounds : ChartBounds)
    (profile : ColorProfile) : List PixelPoint :=
  (scanPositions bounds.x bounds.width interval).filterMap (fun px =>
    let columnPoints := columnRows img bounds profile px
    if columnPoints.isEmpty then none
    else some { x := px, y := median (columnPoints.map (fun n => (n : ℚ))) })

/-- removeOutliers(points): below 10 points the input passes through;
otherwise a point is kept when its z-score satisfies
|(y - mean)/stdDev| < 2.5 strictly.  When stdDev = 0 every deviation
y - mean is also 0 (zero population variance forces every value equal to the
mean), the JavaScript z-score is 0/0 = NaN, and NaN < 2.5 is false, so the
point is dropped; the stdDev = 0 branch returning false models exactly that. -/
noncomputable def removeOutliers (points : List PixelPoint) : List PixelPoint :=
  if points.length < 10 then points
  else
    let yValues := points.map (fun p => p.y)
    let mean := yValues.sum / (yValues.length : ℚ)
    let stdDev := standardDeviation yValues
    points.filter (fun p =>
      if stdDev = 0 then false
      else decide (|((p.y - mean : ℚ) : ℝ)| / stdDev < (CONFIG.outlierThreshold : ℝ)))

/-- smoothData(points) with the smoothing window an explicit parameter (the
source reads CONFIG.smoothingWindow = 5): centered moving average over y
with windows truncated at both edges, x passed through unchanged; input with
fewer points than the window passes through unchanged. -/
def smoothData (window : ℕ) (points : List PixelPoint) : List PixelPoint :=
  if points.length < window then points
  else
    let halfWindow := window / 2
    (List.range points.length).map (fun i =>
      let start := i - halfWindow
      let stop := min points.length (i + halfWindow + 1)
      let win := (points.drop start).take (stop - start)
      { x := (points.getD i default).x
        y := (win.map (fun p => p.y)).sum / (win.length : ℚ) })

/-- detectChartBounds(): trim a 10 percent margin from each edge.
Math.floor of width * 0.1 and width * 0.8 computed in binary floating point
equals the exact floor of w/10 and 8w/10 for every image dimension (the
products are never within a rounding error of an integer they do not reach),
so natural-number division is a faithful model. -/
def detectChartBounds (w h : ℕ) : ChartBounds :=
  { x := w / 10, y := h / 10, width := w * 8 / 10, height := h * 8 / 10 }

/-- CONFIG.colorProfiles[colorName]: registry lookup.  Every name
detectLineColor can return is in the registry, so the default is unreachable
from the embedded pipeline. -/
def profileFor (colorName : String) : ColorProfile :=
  (((CONFIG.colorProfiles.find? (fun entry => entry.1 == colorName)).map
    (fun e => e.2)).getD { r := (0, 0), g := (0, 0), b := (0, 0) })

/-- Errors the embedded pipeline can raise: insufficientData models the
Error thrown by analyze() when too few raw points are extracted; typeError
models the TypeError JavaScript raises when element 0 of an empty array is
dereferenced. -/
inductive JsError
  | insufficientData
  | typeError
deriving DecidableEq

/-- ChartAnalyzer.analyze() on a decoded w-by-h image: bounds detection,
dominant-color detection, raw extraction, the minimum-point check on the raw
trace, then outlier removal and smoothing. -/
noncomputable def analyze (img : Image) (w h : ℕ) : Except JsError (List PixelPoint) :=
  let bounds := detectChartBounds w h
  let lineColor := detectLineColor CONFIG.samplingInterval img bounds
  let points := extractDataPoints CONFIG.samplingInterval img bounds (profileFor lineColor)
  if points.length < CONFIG.minLinePoints then .error .insufficientData
  else .ok (smoothData CONFIG.smoothingWindow (removeOutliers points))

/-- PriceMapper.pixelToDate(pixelX): normalize x by the bounds width, then
linearly map [0, 1] onto [dateRange.start, dateRange.end].  The division by
the width happens before linearMap is reached. -/
def pixelToDate (bounds : ChartBounds) (dateRange : DateRange) (pixelX : ℚ) : JVal :=
  let normalizedX := jdiv (some (pixelX - (bounds.x : ℚ))) (some (bounds.width : ℚ))
  linearMap normalizedX 0 1 dateRange.start dateRange.«end»

/-- PriceMapper.pixelToPrice(pixelY): normalize y by the bounds height,
invert (pixel y grows downward, price grows upward), then linearly map
[0, 1] onto [priceRange.min, priceRange.max]. -/
def pixelToPrice (bounds : ChartBounds) (priceRange : PriceRange) (pixelY : ℚ) : JVal :=
  let normalizedY := jdiv (some (pixelY - (bounds.y : ℚ))) (some (bounds.height : ℚ))
  linearMap (jsub (some 1) normalizedY) 0 1 priceRange.min priceRange.max

/-- The closest-point loop of lookupPrice over the list of absolute timestamp
differences: i is the index examined next, best the current closest index,
minDiff its difference.  Only a strictly smaller difference takes over, so
the first point wins an exact tie, and mapped.indexOf(closest) recovers
exactly this index. -/
def closestLoop : List ℚ → ℕ → ℕ → ℚ → ℕ
  | [], _, best, _ => best
  | d :: rest, i, best, minDiff =>
    if d < minDiff then closestLoop rest (i + 1) i d
    else closestLoop rest (i + 1) best minDiff

/-- PriceMapper.lookupPrice(targetTimestamp) over an already mapped domain
series (getMappedData supplies the series in the source): nearest point by
absolute timestamp difference, first point winning ties; interpolate between
the predecessor and the successor when the nearest point is interior and the
target lies between their timestamps; otherwise the nearest price itself.
An empty series raises a TypeError (mapped[0] is undefined). -/
def lookupPrice (mapped : List DomainPoint) (target : ℚ) : Except JsError JVal :=
  match mapped with
  | [] => .error .typeError
  | p0 :: _ =>
    let ds := mapped.map (fun p => |p.timestamp - target|)
    let index := closestLoop ds 0 0 |p0.timestamp - target|
    let closest := mapped.getD index default
    if 0 < index ∧ index < mapped.length - 1 then
      let prev := mapped.getD (index - 1) default
      let next := mapped.getD (index + 1) default
      if prev.timestamp ≤ target ∧ target ≤ next.timestamp then
        .ok (jadd (some prev.price)
          (jmul
            (jdiv (some (target - prev.timestamp))
              (some (next.timestamp - prev.timestamp)))
            (some (next.price - prev.price))))
      else .ok (some closest.price)
    else .ok (some closest.price)

/-- Milliseconds per day, the normalization divisor 1000 * 60 * 60 * 24. -/
def msPerDay : ℚ := 1000 * 60 * 60 * 24

/-- PricePrediction.normalizeData(), run by the constructor: days since the
first timestamp paired with the price.  Reading data[0] of an empty series
raises a TypeError. -/
def normalizeData (data : List DomainPoint) : Except JsError (List (ℚ × ℚ)) :=
  match data with
  | [] => .error .typeError
  | d0 :: _ =>
    .ok (data.map (fun d => ((d.timestamp - d0.timestamp) / msPerDay, d.price)))

/-- Modelled from the spec: the external regression library is not part of
the repository; 4.3 of the spec describes its linear model as an ordinary
least-squares line fit.  Returns (slope, intercept), or none where the fit
is undefined (fewer than two distinct x values make the normal-equation
denominator zero, as for an empty or single-point series). -/
def olsFit (data : List (ℚ × ℚ)) : Option (ℚ × ℚ) :=
  let n : ℚ := (data.length : ℚ)
  let sx := (data.map (fun d => d.1)).sum
  let sy := (data.map (fun d => d.2)).sum
  let sxx := (data.map (fun d => d.1 * d.1)).sum
  let sxy := (data.map (fun d => d.1 * d.2)).sum
  let denom := n * sxx - sx * sx
  if denom = 0 then none
  else
    let slope := (n * sxy - sx * sy) / denom
    some (slope, (sy - slope * sx) / n)

/-- Modelled from the spec: the external regression library polynomial model
at the configured degree 2, a least-squares parabola from the normal
equations (solved here by Cramer); none where the system is singular, as for
a single data point. -/
def polyFit2 (data : List (ℚ × ℚ)) : Option (ℚ × ℚ × ℚ) :=
  let s : ℕ → ℚ := fun k => (data.map (fun d => d.1 ^ k)).sum
  let t : ℕ → ℚ := fun k => (data.map (fun d => d.1 ^ k * d.2)).sum
  let det3 : ℚ → ℚ → ℚ → ℚ → ℚ → ℚ → ℚ → ℚ → ℚ → ℚ := fun a b c d e f g h i =>
    a * (e * i - f * h) - b * (d * i - f * g) + c * (d * h - e * g)
  let dM := det3 (s 0) (s 1) (s 2) (s 1) (s 2) (s 3) (s 2) (s 3) (s 4)
  if dM = 0 then none
  else
    let c0 := det3 (t 0) (s 1) (s 2) (t 1) (s 2) (s 3) (t 2) (s 3) (s 4) / dM
    let c1 := det3 (s 0) (t 0) (s 2) (s 1) (t 1) (s 3) (s 2) (t 2) (s 4) / dM
    let c2 := det3 (s 0) (s 1) (t 0) (s 1) (s 2) (t 1) (s 2) (s 3) (t 2) / dM
    some (c0, c1, c2)

/-- PricePrediction.linearRegression(targetDays). -/
def linearRegression (nd : List (ℚ × ℚ)) (targetDays : ℚ) : JVal :=
  (olsFit nd).map (fun e => e.1 * targetDays + e.2)

/-- PricePrediction.polynomialRegression(targetDays, 2). -/
def polynomialRegression (nd : List (ℚ × ℚ)) (targetDays : ℚ) : JVal :=
  (polyFit2 nd).map (fun c => c.1 + c.2.1 * targetDays + c.2.2 * targetDays ^ 2)

/-- PricePrediction.movingAveragePredict(targetDays): linear fit over the
last 30 normalized points (slice(-30)); below 2 points the last known price
passes through unchanged. -/
def movingAveragePredict (nd : List (ℚ × ℚ)) (targetDays : ℚ) : JVal :=
  let recentWindow := nd.drop (nd.length - 30)
  if recentWindow.length < 2 then some (nd.getLastD (0, 0)).2
  else (olsFit recentWindow).map (fun e => e.1 * targetDays + e.2)

/-- The record PricePrediction.predict returns.  The source formats
confidence and stdDev through toFixed; the embedding keeps the numbers
themselves. -/
structure PredictionOutcome where
  ensemble : JVal
  linear : JVal
  polynomial : JVal
  movingAverage : JVal
  confidence : Option ℝ
  stdDev : Option ℝ

/-- Math.sqrt over a possibly non-finite value: NaN for a negative or
non-finite argument. -/
noncomputable def jsqrt : JVal → Option ℝ
  | some q => if q < 0 then none else some (Real.sqrt (q : ℝ))
  | none => none

/-- Real subtraction with non-finiteness propagating. -/
noncomputable def jsubR : Option ℝ → Option ℝ → Option ℝ
  | some a, some b => some (a - b)
  | _, _ => none

/-- Math.max(0, x): NaN propagates. -/
noncomputable def jmax0 : Option ℝ → Option ℝ
  | some r => some (max 0 r)
  | none => none

/-- True exactly when an Except value carries a result. -/
def isOkE {ε α : Type} : Except ε α → Bool
  | .ok _ => true
  | .error _ => false

/-- PricePrediction construction followed by predict(targetTimestamp): the
constructor runs normalizeData (TypeError on an empty series), then the
three models are evaluated at the target day offset, combined with the
ensemble weights 0.3, 0.4, 0.3 in registry order, and the population
variance of the three predictions around the ensemble value gives
confidence max(0, 100 - sqrt(variance)) and stdDev sqrt(variance). -/
noncomputable def predict (data : List DomainPoint) (targetTimestamp : ℚ) :
    Except JsError PredictionOutcome :=
  match normalizeData data with
  | .error e => .error e
  | .ok nd =>
    let startTime := (data.headD default).timestamp
    let targetDays := (targetTimestamp - startTime) / msPerDay
    let lin := linearRegression nd targetDays
    let pol := polynomialRegression nd targetDays
    let mav := movingAveragePredict nd targetDays
    let ensemble :=
      jadd (jadd (jadd (some 0) (jmul lin (some (3 / 10)))) (jmul pol (some (4 / 10))))
        (jmul mav (some (3 / 10)))
    let variance :=
      jdiv
        (jadd
          (jadd (jadd (some 0) (jmul (jsub lin ensemble) (jsub lin ensemble)))
            (jmul (jsub pol ensemble) (jsub pol ensemble)))
          (jmul (jsub mav ensemble) (jsub mav ensemble)))
        (some 3)
    .ok
      { ensemble := ensemble
        linear := lin
        polynomial := pol
        movingAverage := mav
        confidence := jmax0 (jsubR (some 100) (jsqrt variance))
        stdDev := jsqrt variance }

/-- Specification reading of nearest-point selection over the list of
absolute differences: the first entry that is no larger than every later
entry wins (closest point, first point winning an exact tie). -/
def nearestIdxSpec : List ℚ → ℕ
  | [] => 0
  | d :: rest =>
    if rest.all (fun x => decide (d ≤ x)) then 0 else nearestIdxSpec rest + 1

/-- Specification reading of the two-tier lookup policy: nearest point
first; interpolate between its predecessor and successor exactly when the
nearest point is strictly interior and the target lies between their
timestamps, the interpolated value being undefined (non-finite) when the
two bracketing neighbors share a timestamp; otherwise the raw price of the
nearest point. -/
def lookupSpec (series : List DomainPoint) (target : ℚ) : Except JsError JVal :=
  match series with
  | [] => .error .typeError
  | _ :: _ =>
    let i := nearestIdxSpec (series.map (fun p => |p.timestamp - target|))
    let nearest := series.getD i default
    if 0 < i ∧ i + 1 < series.length then
      let before := series.getD (i - 1) default
      let after := series.getD (i + 1) default
      if before.timestamp ≤ target ∧ target ≤ after.timestamp then
        if after.timestamp = before.timestamp then .ok none
        else
          .ok (some (before.price +
            (target - before.timestamp) / (after.timestamp - before.timestamp) *
              (after.price - before.price)))
      else .ok (some nearest.price)
    else .ok (some nearest.price)

/-- Specification reading of outlier rejection with the strict threshold the
code applies: below 10 points pass through; otherwise exactly the points
whose absolute deviation from the mean is strictly below
threshold * stdDev are kept (a zero stdDev therefore keeps nothing). -/
noncomputable def removeOutliersSpec (points : List PixelPoint) : List PixelPoint :=
  if points.length < 10 then points
  else
    let yValues := points.map (fun p => p.y)
    let mean := yValues.sum / (yValues.length : ℚ)
    points.filter (fun p =>
      decide (|((p.y - mean : ℚ) : ℝ)| <
        (CONFIG.outlierThreshold : ℝ) * standardDeviation yValues))

/-- Specification reading of dominant-color selection: with every count zero
the default profile blue is returned; otherwise the first-declared profile
attaining the maximal count. -/
def selectColorSpec (counts : List (String × ℕ)) : String :=
  let maxCount := (counts.map (fun c => c.2)).foldr max 0
  if maxCount = 0 then "blue"
  else ((((counts.find? (fun c => c.2 == maxCount)).map (fun c => c.1)).getD ("blue")))

/-- Two-point example series of the spec lookup test. -/
def exSeries2 : List DomainPoint := [{ timestamp := 0, price := 10 }, { timestamp := 10, price := 20 }]

/-- Ten points whose y values have mean 10 and population standard deviation
exactly 2, the first point sitting at z-score exactly 2.5. -/
def exThreshold : List PixelPoint :=
  [{ x := 0, y := 15 }, { x := 1, y := 7 }, { x := 2, y := 8 }, { x := 3, y := 11 },
   { x := 4, y := 9 }, { x := 5, y := 10 }, { x := 6, y := 10 }, { x := 7, y := 10 },
   { x := 8, y := 10 }, { x := 9, y := 10 }]

/-- Ten points with identical y value 5: zero population variance. -/
def exConstant : List PixelPoint :=
  [{ x := 0, y := 5 }, { x := 1, y := 5 }, { x := 2, y := 5 }, { x := 3, y := 5 },
   { x := 4, y := 5 }, { x := 5, y := 5 }, { x := 6, y := 5 }, { x := 7, y := 5 },
   { x := 8, y := 5 }, { x := 9, y := 5 }]

/-- Ten points with y values alternating 1 and -1: mean 0, population
standard deviation exactly 1, every point within one standard deviation. -/
def exAlternating : List PixelPoint :=
  [{ x := 0, y := 1 }, { x := 1, y := -1 }, { x := 2, y := 1 }, { x := 3, y := -1 },
   { x := 4, y := 1 }, { x := 5, y := -1 }, { x := 6, y := 1 }, { x := 7, y := -1 },
   { x := 8, y := 1 }, { x := 9, y := -1 }]

/-- Five points tracing heights 0, 1, 2, 3, 4. -/
def exSmooth : List PixelPoint :=
  [{ x := 0, y := 0 }, { x := 1, y := 1 }, { x := 2, y := 2 }, { x := 3, y := 3 },
   { x := 4, y := 4 }]

/-- Single-column test image: rows 10, 12, 14 and 100 are pure blue,
everything else is white. -/
def colImg : Image := fun _ py =>
  if py = 10 ∨ py = 12 ∨ py = 14 ∨ py = 100 then { r := 0, g := 0, b := 255, a := 255 }
  else { r := 255, g := 255, b := 255, a := 255 }

/-- Uniformly blue test image: every column of the chart bounds produces the
same median row, so the extracted trace has zero variance. -/
def flatImg : Image := fun _ _ => { r := 0, g := 0, b := 255, a := 255 }

/-- The standard deviation of a constant list is zero. -/
lemma stdDev_const (l : List ℚ) (c : ℚ) (h : ∀ x ∈ l, x = c) :
    standardDeviation l = 0 := by
  have hz : (l.map (fun val => (val - l.sum / (l.length : ℚ)) ^ 2)).sum = 0 := by
    apply List.sum_eq_zero
    intro x hx
    rcases List.mem_map.mp hx with ⟨v, hv, rfl⟩
    have hne : l ≠ [] := by rintro rfl; cases hv
    have hlen : (l.length : ℚ) ≠ 0 := by
      simpa using hne
    have hsum : l.sum = (l.length : ℚ) * c := by
      rw [List.sum_eq_card_nsmul l c h, nsmul_eq_mul]
    rw [h v hv, hsum, mul_div_cancel_left₀ c hlen, sub_self]
    ring
  simp only [standardDeviation]
  rw [hz]
  simp

/-- The standard deviation is a square root, hence nonnegative. -/
lemma stdDev_nonneg (l : List ℚ) : 0 ≤ standardDeviation l := by
  simp only [standardDeviation]
  exact Real.sqrt_nonneg _

/-- Ten or more points with one common y value are all rejected: the z-score
division is 0/0 = NaN and NaN fails the strict threshold comparison. -/
lemma removeOutliers_allEqual (points : List PixelPoint) (c : ℚ)
    (h10 : ¬ points.length < 10) (hy : ∀ p ∈ points, p.y = c) :
    removeOutliers points = [] := by
  have hσ : standardDeviation (points.map (fun p => p.y)) = 0 := by
    apply stdDev_const _ c
    intro x hx
    rcases List.mem_map.mp hx with ⟨p, hp, rfl⟩
    exact hy p hp
  simp only [removeOutliers, if_neg h10, hσ]
  simp

/-- The filter of removeOutliers agrees pointwise with the strict
multiplicative threshold of the specification reading. -/
lemma removeOutliers_eq_spec (points : List PixelPoint) :
    removeOutliers points = removeOutliersSpec points := by
  by_cases h10 : points.length < 10
  · simp [removeOutliers, removeOutliersSpec, h10]
  · simp only [removeOutliers, removeOutliersSpec, if_neg h10]
    apply List.filter_congr
    intro p hp
    by_cases hσ : standardDeviation (points.map (fun p => p.y)) = 0
    · rw [if_pos hσ, hσ, mul_zero]
      symm
      rw [decide_eq_false_iff_not]
      exact not_lt.mpr (abs_nonneg _)
    · rw [if_neg hσ]
      have hpos : 0 < standardDeviation (points.map (fun p => p.y)) :=
        lt_of_le_of_ne (stdDev_nonneg _) (Ne.symm hσ)
      rw [decide_eq_decide]
      exact div_lt_iff₀ hpos

/-- Claim C4 (amended): outlier rejection is a no-op on clean data of
nonzero variance: for every list of at least 10 points whose y values all
lie within one standard deviation of the mean and whose standard deviation
is nonzero, removeOutliers returns the input unchanged.  The zero-variance
clause of the original claim fails: there each z-score is 0/0 = NaN, the
strict comparison with the threshold is false, and every point is dropped. -/
theorem outlier_rejection_clean_nonzero_variance_noop (points : List PixelPoint)
    (h10 : 10 ≤ points.length)
    (hσ : standardDeviation (points.map (fun p => p.y)) ≠ 0)
    (hin : ∀ p ∈ points,
      |((p.y - (points.map (fun p => p.y)).sum / (((points.map (fun p => p.y)).length : ℚ)) : ℚ) : ℝ)| ≤
        standardDeviation (points.map (fun p => p.y))) :
    removeOutliers points = points := by
  simp only [removeOutliers, if_neg (by omega : ¬ points.length < 10)]
  apply List.filter_eq_self.mpr
  intro p hp
  rw [if_neg hσ, decide_eq_true_eq]
  have hpos : 0 < standardDeviation (points.map (fun p => p.y)) :=
    lt_of_le_of_ne (stdDev_nonneg _) (Ne.symm hσ)
  have h1 := (div_le_one hpos).mpr (hin p hp)
  refine lt_of_le_of_lt h1 ?_
  norm_num [CONFIG]

/-- Claim C4 witness: ten alternating heights 1 and -1 have mean 0 and
standard deviation exactly 1; every point lies within one standard
deviation, and removeOutliers keeps them all. -/
theorem outlier_rejection_clean_witness :
    removeOutliers exAlternating = exAlternating := by
  have hσ : standardDeviation (exAlternating.map (fun p => p.y)) = 1 := by
    norm_num [exAlternating, standardDeviation]
  apply outlier_rejection_clean_nonzero_variance_noop
  · norm_num [exAlternating]
  · rw [hσ]; norm_num
  · intro p hp
    fin_cases hp <;> rw [hσ] <;> norm_num [exAlternating]

/-- Claim C4 counterexample: ten points of equal height have zero variance;
removeOutliers drops every one of them instead of passing the list through. -/
theorem outlier_rejection_zero_variance_empties :
    removeOutliers exConstant = [] ∧ exConstant ≠ [] := by
  constructor
  · exact removeOutliers_allEqual exConstant 5 (by norm_num [exConstant])
      (by intro p hp; fin_cases hp <;> rfl)
  · simp [exConstant]

/-- Claim C5 (amended): removeOutliers returns the input unchanged below 10
points; otherwise it keeps exactly the points whose absolute deviation from
the once-computed mean is strictly below threshold times the once-computed
population standard deviation (so a z-score exactly equal to the threshold
2.5 is dropped, and zero variance keeps nothing). -/
theorem remove_outliers_strict_threshold_spec :
    (∀ points : List PixelPoint, removeOutliers points = removeOutliersSpec points) ∧
    (∀ points : List PixelPoint, points.length < 10 → removeOutliers points = points) := by
  constructor
  · exact removeOutliers_eq_spec
  · intro points h
    simp [removeOutliers, h]

/-- Claim C5 counterexample: in the ten-point list with mean 10 and standard
deviation 2, the point of height 15 has z-score exactly 2.5, the claimed
threshold; the code drops it instead of keeping it. -/
theorem remove_outliers_boundary_z_dropped :
    removeOutliers exThreshold = exThreshold.drop 1 ∧
    removeOutliers exThreshold ≠ exThreshold ∧
    |(((15 : ℚ) - 10 : ℚ) : ℝ)| / standardDeviation (exThreshold.map (fun p => p.y)) = 5 / 2 := by
  have hσ : standardDeviation [(15 : ℚ), 7, 8, 11, 9, 10, 10, 10, 10, 10] = 2 := by
    norm_num [standardDeviation]
    rw [show (4 : ℝ) = 2 ^ 2 by norm_num]
    exact Real.sqrt_sq (by norm_num)
  have hmap : exThreshold.map (fun p => p.y) = [(15 : ℚ), 7, 8, 11, 9, 10, 10, 10, 10, 10] := by
    norm_num [exThreshold]
  have h1 : removeOutliers exThreshold = exThreshold.drop 1 := by
    norm_num [removeOutliers, exThreshold, hσ, List.filter, CONFIG]
  refine ⟨h1, ?_, ?_⟩
  · rw [h1]
    intro hcontra
    exact absurd (congrArg List.length hcontra) (by norm_num [exThreshold])
  · rw [hmap, hσ]
    norm_num

/-- Claim C6: pixel-to-domain conversion is the linear map with vertical
inversion: x normalized by the bounds width maps onto
[dateRange.start, dateRange.end], and y normalized by the bounds height is
inverted before mapping onto [priceRange.min, priceRange.max]; with
dateRange 0..100, priceRange 0..10 and bounds x 0, width 100, y 0,
height 10, the pixel (50, 5) maps to timestamp 50 and price 5. -/
theorem pixel_to_domain_linear_inverted :
    (∀ (bounds : ChartBounds) (dr : DateRange) (px : ℚ), bounds.width ≠ 0 →
      pixelToDate bounds dr px =
        some ((px - (bounds.x : ℚ)) / (bounds.width : ℚ) * (dr.«end» - dr.start) + dr.start)) ∧
    (∀ (bounds : ChartBounds) (pr : PriceRange) (py : ℚ), bounds.height ≠ 0 →
      pixelToPrice bounds pr py =
        some ((1 - (py - (bounds.y : ℚ)) / (bounds.height : ℚ)) * (pr.max - pr.min) + pr.min)) ∧
    pixelToDate ⟨0, 0, 100, 10⟩ ⟨0, 100⟩ 50 = some 50 ∧
    pixelToPrice ⟨0, 0, 100, 10⟩ ⟨0, 10⟩ 5 = some 5 := by
  refine ⟨?_, ?_, ?_, ?_⟩
  · intro bounds dr px hw
    have hw' : (bounds.width : ℚ) ≠ 0 := Nat.cast_ne_zero.mpr hw
    simp only [pixelToDate, linearMap, jdiv, jsub, jmul, jadd, if_neg hw',
      if_neg (one_ne_zero : (1 : ℚ) ≠ 0)]
    norm_num
  · intro bounds pr py hh
    have hh' : (bounds.height : ℚ) ≠ 0 := Nat.cast_ne_zero.mpr hh
    simp only [pixelToPrice, linearMap, jdiv, jsub, jmul, jadd, if_neg hh',
      if_neg (one_ne_zero : (1 : ℚ) ≠ 0)]
    norm_num
  · norm_num [pixelToDate, linearMap, jdiv, jsub, jmul, jadd]
  · norm_num [pixelToPrice, linearMap, jdiv, jsub, jmul, jadd]

/-- Claim C2 counterexample: with zero-width bounds, pixelToDate at pixel 50
over the date range 7..9 is non-finite (the division by the width happens
before linearMap and its guard are reached), not the lower bound 7; the
same holds for pixelToPrice with zero-height bounds. -/
theorem pixel_zero_width_not_lower_bound :
    pixelToDate ⟨0, 0, 0, 10⟩ ⟨7, 9⟩ 50 = none ∧
    pixelToDate ⟨0, 0, 0, 10⟩ ⟨7, 9⟩ 50 ≠ some 7 ∧
    pixelToPrice ⟨0, 0, 10, 0⟩ ⟨7, 9⟩ 50 = none ∧
    pixelToPrice ⟨0, 0, 10, 0⟩ ⟨7, 9⟩ 50 ≠ some 7 := by decide

/-- Claim C2 (amended): the degenerate-range guard lives in linearMap, which
returns outMin whenever inMax = inMin; but pixelToDate and pixelToPrice
normalize by dividing by the bounds width and height before calling
linearMap on the fixed input range 0..1, so zero-width (zero-height) bounds
produce a non-finite value (NaN or an infinity), not the lower bound of
the range. -/
theorem degenerate_bounds_guard_location :
    (∀ (v inMin inMax outMin outMax : ℚ), inMax = inMin →
      linearMap (some v) inMin inMax outMin outMax = some outMin) ∧
    (∀ (bounds : ChartBounds) (dr : DateRange) (px : ℚ), bounds.width = 0 →
      pixelToDate bounds dr px = none) ∧
    (∀ (bounds : ChartBounds) (pr : PriceRange) (py : ℚ), bounds.height = 0 →
      pixelToPrice bounds pr py = none) := by
  refine ⟨?_, ?_, ?_⟩
  · intro v a b c d h
    simp [linearMap, h]
  · intro bounds dr px hw
    norm_num [pixelToDate, jdiv, hw, linearMap, jsub, jmul, jadd]
  · intro bounds pr py hh
    norm_num [pixelToPrice, jdiv, hh, linearMap, jsub, jmul, jadd]

/-- Claim C1 counterexample: on a one-point series the forecast stage raises
no error at all — predict returns a prediction record rather than failing
with an insufficient-series error. -/
theorem forecast_one_point_returns_prediction :
    isOkE (predict [{ timestamp := 0, price := 10 }] 100) = true := rfl

/-- Claim C1 (amended): the forecast stage has no insufficient-series guard
and no dedicated error for series of fewer than 2 points.  With 0 points the
constructor raises a generic TypeError while reading element 0 of the empty
series; with exactly 1 point predict raises nothing and returns a prediction
record whose linear, polynomial, ensemble, confidence and stdDev components
are non-finite and whose moving-average component is the single known
price. -/
theorem forecast_no_insufficient_series_guard :
    ∀ (p : DomainPoint) (t : ℚ),
      predict [] t = Except.error JsError.typeError ∧
      predict [p] t = Except.ok
        { ensemble := none, linear := none, polynomial := none,
          movingAverage := some p.price, confidence := none, stdDev := none } := by
  intro p t
  refine ⟨rfl, ?_⟩
  have hnd : normalizeData [p] = Except.ok [((0 : ℚ), p.price)] := by
    simp [normalizeData, sub_self, zero_div]
  have hols : olsFit [((0 : ℚ), p.price)] = none := by
    norm_num [olsFit]
  have hpoly : polyFit2 [((0 : ℚ), p.price)] = none := by
    norm_num [polyFit2]
  simp only [predict, hnd]
  simp [linearRegression, polynomialRegression, movingAveragePredict, hols, hpoly,
    jadd, jmul, jsub, jdiv, jsqrt, jsubR, jmax0, List.getLastD]

/-- Claim C7: smoothData is a centered moving average over y only with
windows truncated at the edges: it is a no-op on inputs shorter than the
window; otherwise it preserves length and x values, and output point i has
y equal to the mean of the input y values over the index range from
max(0, i - floor(window/2)) (natural subtraction) up to but excluding
min(n, i + floor(window/2) + 1); in particular for heights 0..4 with window
3 the smoothed value at index 0 averages exactly the two values 0 and 1. -/
theorem smooth_centered_truncated_average :
    ∀ (window : ℕ) (points : List PixelPoint),
      (points.length < window → smoothData window points = points) ∧
      (smoothData window points).length = points.length ∧
      (∀ i, i < points.length → ¬ points.length < window →
        (smoothData window points).getD i default =
          { x := (points.getD i default).x
            y := (((points.map (fun p => p.y)).drop (i - window / 2)).take
                    (min points.length (i + window / 2 + 1) - (i - window / 2))).sum /
              ((min points.length (i + window / 2 + 1) - (i - window / 2) : ℕ) : ℚ) }) ∧
      (smoothData 3 exSmooth).getD 0 default = { x := 0, y := (0 + 1) / 2 } := by
  intro window points
  refine ⟨?_, ?_, ?_, ?_⟩
  · intro h
    simp [smoothData, h]
  · by_cases h : points.length < window
    · simp [smoothData, h]
    · simp [smoothData, h]
  · intro i hi hw
    simp only [smoothData, if_neg hw]
    rw [List.getD_eq_getElem?_getD, List.getElem?_map, List.getElem?_range hi]
    simp only [Option.map_some', Option.getD_some]
    have hlen : ((points.drop (i - window / 2)).take
        (min points.length (i + window / 2 + 1) - (i - window / 2))).length =
        min points.length (i + window / 2 + 1) - (i - window / 2) := by
      rw [List.length_take, List.length_drop]
      omega
    rw [List.map_take, List.map_drop, hlen]
  · norm_num [smoothData, exSmooth, List.range_succ]

/-- The interpolation expression of lookupPrice as a single conditional:
non-finite exactly when the bracketing neighbors share a timestamp. -/
lemma jinterp (a x y z : ℚ) :
    jadd (some a) (jmul (jdiv (some x) (some y)) (some z)) =
      if y = 0 then none else some (a + x / y * z) := by
  by_cases h : y = 0 <;> simp [jadd, jmul, jdiv, h]

/-- The closest-point loop lands on its starting index plus the
first-minimum position of the remaining differences when one of them beats
the running minimum strictly, and keeps the current best otherwise. -/
lemma closestLoop_spec (l : List ℚ) : ∀ (i best : ℕ) (m : ℚ),
    closestLoop l i best m =
      if l.any (fun x => decide (x < m)) then i + nearestIdxSpec l else best := by
  induction l with
  | nil =>
    intro i best m
    simp [closestLoop]
  | cons d rest ih =>
    intro i best m
    simp only [closestLoop, List.any_cons]
    by_cases hd : d < m
    · rw [if_pos hd, ih]
      have hcond : (decide (d < m) || rest.any fun x => decide (x < m)) = true := by
        simp [hd]
      rw [if_pos hcond]
      by_cases hr : (rest.any fun x => decide (x < d)) = true
      · rw [if_pos hr]
        rcases List.any_eq_true.mp hr with ⟨x, hx, hxd⟩
        have hnotall : ¬ ((rest.all fun x => decide (d ≤ x)) = true) := by
          simp only [List.all_eq_true, decide_eq_true_eq]
          push_neg
          exact ⟨x, hx, of_decide_eq_true hxd⟩
        simp only [nearestIdxSpec, if_neg hnotall]
        omega
      · rw [if_neg hr]
        have hall : (rest.all fun x => decide (d ≤ x)) = true := by
          simp only [List.any_eq_true, decide_eq_true_eq] at hr
          push_neg at hr
          simp only [List.all_eq_true, decide_eq_true_eq]
          exact hr
        simp [nearestIdxSpec, hall]
    · rw [if_neg hd, ih]
      have hdec : decide (d < m) = false := by simpa using hd
      simp only [hdec, Bool.false_or]
      by_cases hr : (rest.any fun x => decide (x < m)) = true
      · rw [if_pos hr, if_pos hr]
        rcases List.any_eq_true.mp hr with ⟨x, hx, hxm⟩
        have hxd : x < d := lt_of_lt_of_le (of_decide_eq_true hxm) (not_lt.mp hd)
        have hnotall : ¬ ((rest.all fun x => decide (d ≤ x)) = true) := by
          simp only [List.all_eq_true, decide_eq_true_eq]
          push_neg
          exact ⟨x, hx, hxd⟩
        simp only [nearestIdxSpec, if_neg hnotall]
        omega
      · rw [if_neg hr, if_neg hr]

/-- Started the way lookupPrice starts it (the first difference is also the
initial minimum), the loop returns the first index of a minimal difference. -/
lemma closestLoop_head (d : ℚ) (rest : List ℚ) :
    closestLoop (d :: rest) 0 0 d = nearestIdxSpec (d :: rest) := by
  simp only [closestLoop, if_neg (lt_irrefl d)]
  rw [closestLoop_spec]
  by_cases h : (rest.any fun x => decide (x < d)) = true
  · rw [if_pos h]
    rcases List.any_eq_true.mp h with ⟨x, hx, hxd⟩
    have hnotall : ¬ ((rest.all fun x => decide (d ≤ x)) = true) := by
      simp only [List.all_eq_true, decide_eq_true_eq]
      push_neg
      exact ⟨x, hx, of_decide_eq_true hxd⟩
    simp only [nearestIdxSpec, if_neg hnotall]
    omega
  · rw [if_neg h]
    have hall : (rest.all fun x => decide (d ≤ x)) = true := by
      simp only [List.any_eq_true, decide_eq_true_eq] at h
      push_neg at h
      simp only [List.all_eq_true, decide_eq_true_eq]
      exact h
    simp [nearestIdxSpec, hall]

/-- lookupPrice computes exactly the specification reading of the two-tier
policy on every series and target. -/
lemma lookupPrice_eq_spec (series : List DomainPoint) (target : ℚ) :
    lookupPrice series target = lookupSpec series target := by
  rcases series with _ | ⟨p0, rest⟩
  · rfl
  · simp only [lookupPrice, lookupSpec, List.map_cons]
    rw [closestLoop_head]
    set i := nearestIdxSpec (|p0.timestamp - target| :: rest.map fun p => |p.timestamp - target|)
    by_cases hc : 0 < i ∧ i + 1 < (p0 :: rest).length
    · have hc' : 0 < i ∧ i < (p0 :: rest).length - 1 := by
        simp only [List.length_cons] at hc ⊢
        omega
      rw [if_pos hc', if_pos hc]
      by_cases hb : ((p0 :: rest).getD (i - 1) default).timestamp ≤ target ∧
          target ≤ ((p0 :: rest).getD (i + 1) default).timestamp
      · rw [if_pos hb, if_pos hb, jinterp]
        by_cases hy : ((p0 :: rest).getD (i + 1) default).timestamp =
            ((p0 :: rest).getD (i - 1) default).timestamp
        · rw [if_pos hy, if_pos (sub_eq_zero.mpr hy)]
        · rw [if_neg hy, if_neg (sub_ne_zero.mpr hy)]
      · rw [if_neg hb, if_neg hb]
    · have hc' : ¬ (0 < i ∧ i < (p0 :: rest).length - 1) := by
        simp only [List.length_cons] at hc ⊢
        omega
      rw [if_neg hc', if_neg hc]

/-- Claim C3 (amended): lookup follows the two-tier policy: it selects the
point with timestamp closest to the target (first point wins an exact tie);
if that point has both a predecessor and a successor and the target lies
between their timestamps, it returns the price linearly interpolated
between those two neighbors, otherwise the raw price of the nearest point.  For
the two-point series (t 0, p 10), (t 10, p 20) no point is strictly
interior, so lookup at t = 5 — an exact tie won by the first point —
returns 10 (not an interpolated 15), and lookup at t = -5 returns 10. -/
theorem lookup_two_tier_policy :
    (∀ (series : List DomainPoint) (target : ℚ),
      lookupPrice series target = lookupSpec series target) ∧
    lookupPrice exSeries2 5 = Except.ok (some 10) ∧
    lookupPrice exSeries2 (-5) = Except.ok (some 10) := by
  refine ⟨lookupPrice_eq_spec, ?_, ?_⟩
  · norm_num [lookupPrice, exSeries2, closestLoop, List.map]
  · norm_num [lookupPrice, exSeries2, closestLoop, List.map]

/-- Claim C3 counterexample: on the series (t 0, p 10), (t 10, p 20) the
code returns 10 at target 5 — the first point wins the exact tie and a
two-point series has no strictly interior point — not the midpoint value 15
asserted by the original claim. -/
theorem lookup_midpoint_tie_returns_first :
    lookupPrice exSeries2 5 = Except.ok (some 10) ∧
    lookupPrice exSeries2 5 ≠ Except.ok (some 15) := by
  have h : lookupPrice exSeries2 5 = Except.ok (some 10) := by
    norm_num [lookupPrice, exSeries2, closestLoop, List.map]
  refine ⟨h, ?_⟩
  rw [h]
  intro hcontra
  have h2 := Option.some.inj (Except.ok.inj hcontra)
  norm_num at h2

/-- The strictly-greater reduce over four named counts picks the default
blue when every count is zero and otherwise the first entry attaining the
maximal count. -/
lemma select4 (a b c d : ℕ) :
    (([("blue", a), ("red", b), ("green", c), ("black", d)] : List (String × ℕ)).foldl
      (fun best entry => if entry.2 > best.2 then entry else best) ("blue", 0)).1 =
    selectColorSpec [("blue", a), ("red", b), ("green", c), ("black", d)] := by
  have hacc1 : (if a > 0 then (("blue", a) : String × ℕ) else ("blue", 0)) = ("blue", a) := by
    rcases Nat.eq_zero_or_pos a with h | h
    · subst h; simp
    · rw [if_pos h]
  simp only [selectColorSpec, List.foldl, List.map, List.foldr]
  rw [hacc1]
  by_cases hb : b > a
  · rw [if_pos hb]
    by_cases hc : c > b
    · rw [if_pos hc]
      by_cases hd : d > c
      · rw [if_pos hd, if_neg (by omega : ¬ a ⊔ (b ⊔ (c ⊔ (d ⊔ 0))) = 0)]
        rw [List.find?_cons_of_neg, List.find?_cons_of_neg, List.find?_cons_of_neg,
          List.find?_cons_of_pos] <;>
          first
            | rfl
            | (simp only [beq_iff_eq, decide_eq_true_eq, Prod.snd]; omega)
      · rw [if_neg hd, if_neg (by omega : ¬ a ⊔ (b ⊔ (c ⊔ (d ⊔ 0))) = 0)]
        rw [List.find?_cons_of_neg, List.find?_cons_of_neg, List.find?_cons_of_pos] <;>
          first
            | rfl
            | (simp only [beq_iff_eq, decide_eq_true_eq, Prod.snd]; omega)
    · rw [if_neg hc]
      by_cases hd : d > b
      · rw [if_pos hd, if_neg (by omega : ¬ a ⊔ (b ⊔ (c ⊔ (d ⊔ 0))) = 0)]
        rw [List.find?_cons_of_neg, List.find?_cons_of_neg, List.find?_cons_of_neg,
          List.find?_cons_of_pos] <;>
          first
            | rfl
            | (simp only [beq_iff_eq, decide_eq_true_eq, Prod.snd]; omega)
      · rw [if_neg hd, if_neg (by omega : ¬ a ⊔ (b ⊔ (c ⊔ (d ⊔ 0))) = 0)]
        rw [List.find?_cons_of_neg, List.find?_cons_of_pos] <;>
          first
            | rfl
            | (simp only [beq_iff_eq, decide_eq_true_eq, Prod.snd]; omega)
  · rw [if_neg hb]
    by_cases hc : c > a
    · rw [if_pos hc]
      by_cases hd : d > c
      · rw [if_pos hd, if_neg (by omega : ¬ a ⊔ (b ⊔ (c ⊔ (d ⊔ 0))) = 0)]
        rw [List.find?_cons_of_neg, List.find?_cons_of_neg, List.find?_cons_of_neg,
          List.find?_cons_of_pos] <;>
          first
            | rfl
            | (simp only [beq_iff_eq, decide_eq_true_eq, Prod.snd]; omega)
      · rw [if_neg hd, if_neg (by omega : ¬ a ⊔ (b ⊔ (c ⊔ (d ⊔ 0))) = 0)]
        rw [List.find?_cons_of_neg, List.find?_cons_of_neg, List.find?_cons_of_pos] <;>
          first
            | rfl
            | (simp only [beq_iff_eq, decide_eq_true_eq, Prod.snd]; omega)
    · rw [if_neg hc]
      by_cases hd : d > a
      · rw [if_pos hd, if_neg (by omega : ¬ a ⊔ (b ⊔ (c ⊔ (d ⊔ 0))) = 0)]
        rw [List.find?_cons_of_neg, List.find?_cons_of_neg, List.find?_cons_of_neg,
          List.find?_cons_of_pos] <;>
          first
            | rfl
            | (simp only [beq_iff_eq, decide_eq_true_eq, Prod.snd]; omega)
      · rw [if_neg hd]
        by_cases hM : a ⊔ (b ⊔ (c ⊔ (d ⊔ 0))) = 0
        · rw [if_pos hM]
        · rw [if_neg hM]
          rw [List.find?_cons_of_pos] <;>
            first
              | rfl
              | (simp only [beq_iff_eq, decide_eq_true_eq, Prod.snd]; omega)

/-- Claim C9: detectLineColor returns the profile name with the highest
match count over the sampled pixels; on an equal highest count the
first-declared profile of the registry wins (the reduce only replaces on a
strictly greater count); and when every count is zero it returns the
default profile blue rather than failing. -/
theorem detect_color_max_tie_default :
    ∀ (interval : ℕ) (img : Image) (bounds : ChartBounds),
      detectLineColor interval img bounds = selectColorSpec (colorCounts interval img bounds) ∧
      ((colorCounts interval img bounds).all (fun e => e.2 == 0) = true →
        detectLineColor interval img bounds = "blue") := by
  intro interval img bounds
  constructor
  · simp only [detectLineColor, colorCounts, CONFIG, List.map]
    exact select4 _ _ _ _
  · intro h
    simp only [colorCounts, CONFIG, List.map, List.all_cons, List.all_nil, Bool.and_true,
      Bool.and_eq_true, beq_iff_eq] at h
    obtain ⟨h1, h2, h3, h4⟩ := h
    simp only [detectLineColor, colorCounts, CONFIG, List.map]
    rw [h1, h2, h3, h4]
    rfl

/-- The scanned column positions are strictly increasing for a positive
step. -/
lemma scanPositions_pairwise (start len step : ℕ) (hs : 0 < step) :
    (scanPositions start len step).Pairwise (· < ·) := by
  unfold scanPositions
  refine List.Pairwise.map _ ?_ (List.pairwise_lt_range _)
  intro a b hab
  have h2 : a * step < b * step := (Nat.mul_lt_mul_right hs).mpr hab
  omega

/-- The x coordinates of the extracted points form a sublist of the scanned
column positions: each column contributes at most one point carrying the
position of that column. -/
lemma extract_x_sublist (interval : ℕ) (img : Image) (bounds : ChartBounds)
    (profile : ColorProfile) :
    ((extractDataPoints interval img bounds profile).map (fun p => p.x)).Sublist
      (scanPositions bounds.x bounds.width interval) := by
  simp only [extractDataPoints]
  induction scanPositions bounds.x bounds.width interval with
  | nil => simp
  | cons a l ih =>
    rw [List.filterMap_cons]
    cases hfa : (columnRows img bounds profile a).isEmpty with
    | true =>
      simp only [hfa, if_pos rfl]
      exact ih.cons a
    | false =>
      simp only [hfa, Bool.false_eq_true, if_false]
      rw [List.map_cons]
      exact ih.cons₂ a

/-- Every extracted point carries the median of the matching row positions
of its own column. -/
lemma extract_mem_median (interval : ℕ) (img : Image) (bounds : ChartBounds)
    (profile : ColorProfile) (p : PixelPoint)
    (hp : p ∈ extractDataPoints interval img bounds profile) :
    p.y = median ((columnRows img bounds profile p.x).map (fun n => (n : ℚ))) := by
  simp only [extractDataPoints] at hp
  rcases List.mem_filterMap.mp hp with ⟨px, hpx, hf⟩
  by_cases he : (columnRows img bounds profile px).isEmpty
  · rw [if_pos he] at hf
    cases hf
  · rw [if_neg he] at hf
    obtain rfl := Option.some.inj hf
    rfl

/-- Claim C8: extractDataPoints emits at most one point per scanned column,
the emitted x values are strictly increasing in scan order (for the positive
sampling interval the loop requires), the y of each emitted point is the median
of the row positions matching the profile in its column, and a column whose
matching rows are 10, 12, 14 and 100 yields y = 13. -/
theorem extract_points_per_column_median :
    ∀ (interval : ℕ) (img : Image) (bounds : ChartBounds) (profile : ColorProfile),
      (extractDataPoints interval img bounds profile).length ≤
        (scanPositions bounds.x bounds.width interval).length ∧
      (0 < interval →
        ((extractDataPoints interval img bounds profile).map (fun p => p.x)).Pairwise (· < ·)) ∧
      (∀ p ∈ extractDataPoints interval img bounds profile,
        p.y = median ((columnRows img bounds profile p.x).map (fun n => (n : ℚ)))) ∧
      median [10, 12, 14, 100] = 13 ∧
      extractDataPoints 1 colImg ⟨0, 0, 1, 101⟩ (profileFor ("blue")) = [{ x := 0, y := 13 }] := by
  intro interval img bounds profile
  refine ⟨?_, ?_, ?_, ?_, ?_⟩
  · simp only [extractDataPoints]
    exact List.length_filterMap_le _ _
  · intro hs
    exact List.Pairwise.sublist (extract_x_sublist interval img bounds profile)
      (scanPositions_pairwise bounds.x bounds.width interval hs)
  · exact fun p hp => extract_mem_median interval img bounds profile p hp
  · norm_num [median, List.insertionSort, List.orderedInsert]
  · have hrows : ∀ px,
        columnRows colImg ⟨0, 0, 1, 101⟩ (profileFor ("blue")) px = [10, 12, 14, 100] :=
      fun _ => rfl
    simp only [extractDataPoints, hrows]
    norm_num [scanPositions, List.filterMap, List.range_succ]
    norm_num [median, List.insertionSort, List.orderedInsert]

/-- A filterMap whose function always succeeds is a map. -/
lemma filterMap_someFn (g : ℕ → PixelPoint) (l : List ℕ) :
    l.filterMap (fun x => some (g x)) = l.map g := by
  induction l with
  | nil => rfl
  | cons a t ih =>
    rw [List.filterMap_cons, List.map_cons]
    simp [ih]

/-- Claim C10: analyze raises its insufficient-data error exactly when the
raw extracted trace, before outlier rejection and smoothing, has fewer than
minLinePoints (20) points; and there are inputs on which analyze succeeds
yet returns fewer than minLinePoints points — here the empty sequence — on
a uniformly blue image whose 20 extracted points share one median row, so
the zero-variance outlier rejection applied after the check removes them
all. -/
theorem analyze_error_iff_raw_below_min :
    ∀ (img : Image) (w h : ℕ),
      (analyze img w h = Except.error JsError.insufficientData ↔
        (extractDataPoints CONFIG.samplingInterval img (detectChartBounds w h)
          (profileFor (detectLineColor CONFIG.samplingInterval img (detectChartBounds w h)))).length
          < CONFIG.minLinePoints) ∧
      analyze flatImg 25 5 = Except.ok [] ∧
      CONFIG.minLinePoints ≤
        (extractDataPoints CONFIG.samplingInterval flatImg (detectChartBounds 25 5)
          (profileFor (detectLineColor CONFIG.samplingInterval flatImg
            (detectChartBounds 25 5)))).length := by
  have hcolor : detectLineColor CONFIG.samplingInterval flatImg (detectChartBounds 25 5) = "blue" := by
    decide
  have hrows : ∀ px,
      columnRows flatImg (detectChartBounds 25 5) (profileFor ("blue")) px = [0, 1, 2, 3] :=
    fun _ => rfl
  have hmed : median (([0, 1, 2, 3] : List ℕ).map (fun n => (n : ℚ))) = 3 / 2 := by
    norm_num [median, List.insertionSort, List.orderedInsert]
  have hext : extractDataPoints CONFIG.samplingInterval flatImg (detectChartBounds 25 5)
      (profileFor ("blue")) =
      (scanPositions 2 20 1).map (fun px => ({ x := px, y := 3 / 2 } : PixelPoint)) := by
    simp only [extractDataPoints, hrows, hmed, List.isEmpty_cons, Bool.false_eq_true, if_false]
    rw [filterMap_someFn]
    rfl
  have hro : removeOutliers ((scanPositions 2 20 1).map
      (fun px => ({ x := px, y := 3 / 2 } : PixelPoint))) = [] := by
    apply removeOutliers_allEqual _ (3 / 2)
    · rw [List.length_map]
      decide
    · intro p hp
      rcases List.mem_map.mp hp with ⟨px, hpx, rfl⟩
      rfl
  intro img w h
  refine ⟨?_, ?_, ?_⟩
  · constructor
    · intro he
      by_contra hlt
      simp only [analyze, if_neg hlt] at he
      cases he
    · intro hlt
      simp only [analyze, if_pos hlt]
  · simp only [analyze, hcolor, hext]
    rw [if_neg (by rw [List.length_map]; decide)]
    rw [hro]
    rfl
  · rw [hcolor, hext, List.length_map]
    decide
